import Mathlib

/-!
Verification development for adb-ssl-unpinning.py, a single-file Python
script that pulls the split APKs of an installed Android package from a
device, patches the base split (manifest attribute plus a network security
config resource), repacks, re-signs, uninstalls the original package and
installs the patched splits.

The script is sequential orchestration over the filesystem and external
tools, so the shallow embedding models:
  - the pure string manipulations character by character (Python
    str.split with a count of one, pathlib name and stem, removeprefix);
  - the manifest edit (patch_manifest) over an attribute list plus an
    abstract serialization of the rewritten file;
  - the unconditional write of the network security config
    (add_network_security_config) over a path-to-content map, where
    directory creation has no effect on file contents;
  - the patched-output directory of patch_package as a Finset of entry
    names evolving through the per-split create, remove and rename steps
    (lines 98-117 of the source), with glob("*.apk") as a suffix filter;
  - the main control flow as an event trace (downloads, device query,
    pulls, per-split steps, uninstall, install, exit codes), faithful to
    the statement order of lines 125-134 and of patch_package.
-/

/-- Characters after the first ':' of a list, or none when no ':' occurs.
Models the Python expression apk.split(str_colon, 1)[1] of line 58: with a
count of one, Python splits at the first ':' only, and indexing [1] raises
IndexError exactly when the line has no ':'. -/
def afterFirstColon : List Char → Option (List Char)
  | [] => none
  | c :: cs => if c = ':' then some cs else afterFirstColon cs

/-- Split a character list at every '/'. Used to model pathlib component
splitting for Path(apk_path).name on line 60. -/
def splitSlash : List Char → List (List Char)
  | [] => [[]]
  | c :: cs =>
    if c = '/' then [] :: splitSlash cs
    else
      match splitSlash cs with
      | [] => [[c]]
      | g :: gs => (c :: g) :: gs

/-- Final path component: the last nonempty '/'-separated segment, the
model of Path(p).name from line 60 (pathlib drops empty segments coming
from doubled or trailing slashes). -/
def pathName (p : String) : String :=
  String.mk ((((splitSlash p.data).filter (fun g => ! g.isEmpty)).getLast?).getD [])

/-- Split a character list around its last '.', returning the part before
the dot and the part from the dot on; none when no '.' occurs. -/
def lastDotSplit : List Char → Option (List Char × List Char)
  | [] => none
  | c :: cs =>
    match lastDotSplit cs with
    | some (b, a) => some (c :: b, a)
    | none => if c = '.' then some ([], '.' :: cs) else none

/-- Filename stem, the model of Path(apk).stem on line 102. Following the
pathlib rule, the last suffix is stripped only when the last dot is
neither the first nor the last character of the name. -/
def stemOf (s : String) : String :=
  match lastDotSplit s.data with
  | some (b, a) => if b ≠ [] ∧ 2 ≤ a.length then String.mk b else s
  | none => s

/-- Model of argv[2].removeprefix applied with the literal scheme
"package:" on line 133: drop the first eight characters when they spell
that scheme, otherwise return the string unchanged. -/
def stripPackageScheme (s : String) : String :=
  if s.data.take 8 = ("package:" : String).data then String.mk (s.data.drop 8) else s

/-- Boolean suffix test on character lists: s ends with suf exactly when
dropping all but the last suf.length characters of s leaves suf. -/
def endsWithChars (s suf : List Char) : Bool :=
  decide (s.drop (s.length - suf.length) = suf)

/-- Python str.endswith, used on line 36 to pick a release asset. -/
def strEndsWith (s suf : String) : Bool :=
  endsWithChars s.data suf.data

/-- Release endpoint for the decompile tool (line 17 of the source). -/
def APKTOOL_URL : String :=
  "https://api.github.com/repos/iBotPeaches/Apktool/releases/latest"

/-- Release endpoint for the signing tool (line 18 of the source). -/
def UBER_APK_SIGNER_URL : String :=
  "https://api.github.com/repos/patrickfav/uber-apk-signer/releases/latest"

/-- One entry of the assets array of a release listing, with the two JSON
fields the script reads on lines 36-44. -/
structure Asset where
  name : String
  browser_download_url : String
deriving DecidableEq

/-- Model of download_latest_jar (lines 31-48): pick the first listed
asset whose name ends with the jar extension; when none exists the script
raises an Exception, otherwise it downloads the bytes into the utils
cache directory and returns the path utils slash assetname. The network
fetch and local overwrite do not affect the returned path and are elided
from the result model. -/
def download_latest_jar (assets : List Asset) : Except String String :=
  match assets.find? (fun item => strEndsWith item.name ".jar") with
  | some jar_asset => Except.ok ("utils/" ++ jar_asset.name)
  | none => Except.error "JAR file is missing in the release assets."

/-- Namespace URI bound to the android prefix on line 68 of the source. -/
def androidNamespaceURI : String := "http://schemas.android.com/apk/res/android"

/-- Fully qualified attribute key used by ElementTree on lines 69-70:
the namespace URI in braces followed by the local attribute name. -/
def networkSecurityConfigAttr : String :=
  "\x7b" ++ androidNamespaceURI ++ "\x7dnetworkSecurityConfig"

/-- Manifest model for patch_manifest: the attribute list of the
application element together with the current bytes of the manifest
file on disk. -/
structure Manifest where
  appAttrs : List (String × String)
  fileBytes : String
deriving DecidableEq

/-- ElementTree Element.get on an attribute list: value of the first
binding of the key, none when absent. -/
def lookupAttr (attrs : List (String × String)) (k : String) : Option String :=
  (attrs.find? (fun p => p.1 == k)).map (fun p => p.2)

/-- ElementTree Element.set: replace the binding when the key is present,
otherwise append a new binding. -/
def setAttr (attrs : List (String × String)) (k v : String) : List (String × String) :=
  if (attrs.find? (fun p => p.1 == k)).isSome then
    attrs.map (fun p => if p.1 == k then (k, v) else p)
  else attrs ++ [(k, v)]

/-- Stand-in for the bytes ElementTree.write produces on line 71: some
fixed deterministic function of the application attribute list. The
idempotence argument uses only that it is a function of the tree. -/
def serializeManifest (attrs : List (String × String)) : String :=
  "<manifest><application"
    ++ attrs.foldl (fun acc p => acc ++ " " ++ p.1 ++ "=\x22" ++ p.2 ++ "\x22") ""
    ++ "/></manifest>"

/-- Model of patch_manifest (lines 62-71): when the application element
has no networkSecurityConfig attribute in the android namespace, set it
to the resource reference and rewrite the file; otherwise neither the
tree nor the file is touched (tree.write is inside the if on line 71). -/
def patch_manifest (m : Manifest) : Manifest :=
  if lookupAttr m.appAttrs networkSecurityConfigAttr = none then
    let attrs := setAttr m.appAttrs networkSecurityConfigAttr "@xml/network_security_config"
    { appAttrs := attrs, fileBytes := serializeManifest attrs }
  else m

/-- Filesystem content model: a map from path to file content. Directory
creation (mkdir with parents on line 76) changes no file content and is
the identity in this model. -/
abbrev FileSys := String → Option String

/-- Open for writing and write: the path now maps to the new content,
whatever was there before. -/
def writeFile (fs : FileSys) (path content : String) : FileSys :=
  fun q => if q = path then some content else fs q

/-- The exact network security policy document written on lines 78-92. -/
def networkSecurityConfigXML : String :=
  "<?xml version=\x221.0\x22 encoding=\x22utf-8\x22?>\n<network-security-config>\n    <debug-overrides>\n        <trust-anchors>\n            <certificates src=\x22user\x22 />\n        </trust-anchors>\n    </debug-overrides>\n    <base-config cleartextTrafficPermitted=\x22true\x22>\n        <trust-anchors>\n            <certificates src=\x22system\x22 />\n            <certificates src=\x22user\x22 />\n        </trust-anchors>\n    </base-config>\n</network-security-config>\n"

/-- The base-config element of the policy document, carrying the
cleartext permission and the system and user trust anchors. -/
def baseConfigBlock : String :=
  "<base-config cleartextTrafficPermitted=\x22true\x22>\n        <trust-anchors>\n            <certificates src=\x22system\x22 />\n            <certificates src=\x22user\x22 />\n        </trust-anchors>\n    </base-config>"

/-- The debug-overrides element of the policy document, carrying the
user trust anchor. -/
def debugOverridesBlock : String :=
  "<debug-overrides>\n        <trust-anchors>\n            <certificates src=\x22user\x22 />\n        </trust-anchors>\n    </debug-overrides>"

/-- Model of add_network_security_config (lines 73-92): create the
res/xml directory below the unpacked tree (content-free in this model)
and write the fixed policy document, overwriting any existing file. -/
def add_network_security_config (fs : FileSys) (unpacked_apk_path : String) : FileSys :=
  writeFile fs (unpacked_apk_path ++ "/res/xml/network_security_config.xml")
    networkSecurityConfigXML

/-- A decompiled split: its manifest and the rest of its file tree. -/
structure DecompiledTree where
  manifest : Manifest
  files : FileSys

/-- The conditional patch step of patch_package (lines 108-110): only
when the filename stem is the literal base does the decompiled tree
receive the manifest edit and the policy file; otherwise it is returned
untouched to the repack step. -/
def patchStep (file_name : String) (unpacked_apk_path : String) (t : DecompiledTree) :
    DecompiledTree :=
  if file_name = "base" then
    { manifest := patch_manifest t.manifest
      files := add_network_security_config t.files unpacked_apk_path }
  else t

/-- Outcome of pull_package as a process effect: the not-found print plus
exit(1) of lines 53-55, the uncaught IndexError of line 58, or the list
of local file names written into the package directory, in pull order. -/
inductive PullOutcome where
  | notFound
  | indexError
  | pulled (localNames : List String)
deriving DecidableEq

/-- Observable events of one run, in program order: tool downloads
(lines 131-132), the device path query (line 52), per-file pulls
(line 60), per-split decompile, manifest edit, config write, recompile
and sign (lines 107-114), uninstall (line 118), the multi-install
(line 123) and process exit. -/
inductive Event where
  | printUsage
  | downloadTool (url : String)
  | queryPaths (package_name : String)
  | printNotFound
  | pullFile (localName : String)
  | decompile (file_name : String)
  | editManifest (file_name : String)
  | writeConfig (file_name : String)
  | recompile (file_name : String)
  | sign (file_name : String)
  | uninstallPackage (package_name : String)
  | installMultiple (apk_files : List String)
  | exitWith (code : Nat)
  | pyError
deriving DecidableEq

/-- The pull loop of lines 57-60 over the lines of the pm path output:
each line is split after its first ':' and the remote file is pulled to
the local name given by the final path component. A line without ':'
raises IndexError (event pyError) and stops the run; otherwise the pull
events and the list of local names are produced in line order. -/
def pullRun : List String → List Event × Option (List String)
  | [] => ([], some [])
  | l :: ls =>
    match afterFirstColon l.data with
    | none => ([Event.pyError], none)
    | some p =>
      let n := pathName (String.mk p)
      match pullRun ls with
      | (evs, none) => (Event.pullFile n :: evs, none)
      | (evs, some ns) => (Event.pullFile n :: evs, some (n :: ns))

/-- Model of pull_package (lines 50-60): an empty line list means the
query reported nothing, so the script prints the not-found message and
exits with status 1; otherwise the pull loop runs and either aborts with
IndexError or yields the local names written into the output directory. -/
def pull_package (lines : List String) : PullOutcome :=
  if lines.isEmpty then PullOutcome.notFound
  else
    match (pullRun lines).2 with
    | none => PullOutcome.indexError
    | some ns => PullOutcome.pulled ns

/-- Remote path of one query line: the text after the first ':'. -/
def remotePath (l : String) : String :=
  String.mk ((afterFirstColon l.data).getD [])

/-- Local file name chosen for one query line on line 60: the final
component of the remote path. -/
def remoteBasename (l : String) : String :=
  pathName (remotePath l)

/-- One iteration of the split loop of patch_package (lines 101-117),
acting on the set of entry names of the patched-output directory: the
decompile output directory file_name appears, then the repacked apk,
then the signed apk; the repacked apk is removed (line 115), the
decompile directory is removed (line 116), and the signed apk is renamed
to the canonical patched name (line 117). -/
def processSplit (patched_output : Finset String) (file_name : String) : Finset String :=
  let d1 := insert file_name patched_output
  let d2 := insert (file_name ++ ".repack.apk") d1
  let d3 := insert (file_name ++ ".repack-aligned-debugSigned.apk") d2
  let d4 := d3.erase (file_name ++ ".repack.apk")
  let d5 := d4.erase file_name
  let d6 := d5.erase (file_name ++ ".repack-aligned-debugSigned.apk")
  insert (file_name ++ "_patched.apk") d6

/-- Lines 99-100 of patch_package: shutil.rmtree with errors ignored
followed by mkdir leaves the patched-output directory empty, whatever it
held before. -/
def rmtreeThenMkdir (_prior : Finset String) : Finset String := ∅

/-- The patched-output directory after patch_package has processed every
split: the directory is recreated empty and then the split loop runs
over the stems of the pulled files. -/
def patchPackageDir (prior : Finset String) (stems : List String) : Finset String :=
  stems.foldl processSplit (rmtreeThenMkdir prior)

/-- The argument list of the install-multiple call on lines 121-123:
every directory entry matching the glob star-dot-apk, that is, every
entry whose name ends with the apk extension. -/
def installFiles (d : Finset String) : Finset String :=
  d.filter (fun n => endsWithChars n.data (".apk" : String).data = true)

/-- Trace of one split-loop iteration (lines 106-114): decompile, the
base-only manifest edit and config write, recompile, sign. -/
def patchSplitTrace (file_name : String) : List Event :=
  [Event.decompile file_name]
    ++ (if file_name = "base" then
          [Event.editManifest file_name, Event.writeConfig file_name]
        else [])
    ++ [Event.recompile file_name, Event.sign file_name]

/-- Trace of patch_package (lines 94-123): the device path query, then
either the not-found exit, or an aborted pull, or the pulls followed by
the per-split steps over the stems of the distinct pulled names, the
uninstall of the original package, the multi-install over the apk
entries of the patched-output directory, and the successful exit. -/
def patchPackageTrace (package_name : String) (pmLines : List String) : List Event :=
  Event.queryPaths package_name ::
    (if pmLines.isEmpty then [Event.printNotFound, Event.exitWith 1]
     else
       match pullRun pmLines with
       | (evs, none) => evs
       | (evs, some names) =>
         let stems := names.dedup.map stemOf
         evs ++ (stems.map patchSplitTrace).flatten
           ++ [Event.uninstallPackage package_name,
               Event.installMultiple
                 ((installFiles (patchPackageDir ∅ stems)).sort (· ≤ ·)),
               Event.exitWith 0])

/-- Trace of the main block (lines 125-134): with fewer than three argv
entries the usage message is printed and the process exits with 1;
otherwise the two tool jars are downloaded first (lines 131-132), the
package identifier is normalized (line 133), and patch_package runs. -/
def mainTrace (argv : List String) (pmLines : List String) : List Event :=
  if argv.length < 3 then [Event.printUsage, Event.exitWith 1]
  else
    Event.downloadTool APKTOOL_URL :: Event.downloadTool UBER_APK_SIGNER_URL ::
      patchPackageTrace (stripPackageScheme (argv.getD 2 "")) pmLines

/-! ### Helper lemmas -/

lemma take_left_of_le {x y : List Char} {m : Nat} (hm : m ≤ x.length) :
    (x ++ y).take m = x.take m := by
  rw [List.take_append_eq_append_take]
  have h0 : m - x.length = 0 := by omega
  simp [h0]

lemma append_left_ne (a b : String)
    (h : a.data.reverse.take (min a.data.length b.data.length)
       ≠ b.data.reverse.take (min a.data.length b.data.length)) :
    ∀ s t : String, s ++ a ≠ t ++ b := by
  intro s t heq
  have hd : s.data ++ a.data = t.data ++ b.data := by
    rw [← String.data_append, ← String.data_append, heq]
  have hr : a.data.reverse ++ s.data.reverse = b.data.reverse ++ t.data.reverse := by
    have := congrArg List.reverse hd
    simpa [List.reverse_append] using this
  apply h
  have h1 : (a.data.reverse ++ s.data.reverse).take (min a.data.length b.data.length)
      = a.data.reverse.take (min a.data.length b.data.length) :=
    take_left_of_le (by simp)
  have h2 : (b.data.reverse ++ t.data.reverse).take (min a.data.length b.data.length)
      = b.data.reverse.take (min a.data.length b.data.length) :=
    take_left_of_le (by simp)
  rw [← h1, hr, h2]

lemma repack_ne_patched : ∀ s t : String, s ++ ".repack.apk" ≠ t ++ "_patched.apk" :=
  append_left_ne _ _ (by decide)

lemma signed_ne_patched :
    ∀ s t : String, s ++ ".repack-aligned-debugSigned.apk" ≠ t ++ "_patched.apk" :=
  append_left_ne _ _ (by decide)

lemma repack_ne_signed :
    ∀ s t : String, s ++ ".repack.apk" ≠ t ++ ".repack-aligned-debugSigned.apk" :=
  append_left_ne _ _ (by decide)

lemma ne_self_append (s a : String) (ha : a.data ≠ []) : s ≠ s ++ a := by
  intro h
  have hlen := congrArg (fun x => x.data.length) h
  simp only [String.data_append, List.length_append] at hlen
  exact ha (List.length_eq_zero.mp (by omega))

lemma append_patched_injective : Function.Injective (fun s : String => s ++ "_patched.apk") := by
  intro s t h
  have h' : s ++ "_patched.apk" = t ++ "_patched.apk" := h
  have hd : s.data ++ ("_patched.apk" : String).data
      = t.data ++ ("_patched.apk" : String).data := by
    rw [← String.data_append, ← String.data_append, h']
  have hst := List.append_cancel_right hd
  cases s; cases t
  exact congrArg String.mk hst

lemma processSplit_eq_insert (acc : Finset String) (s : String)
    (hs : s ∉ acc)
    (hrk : s ++ ".repack.apk" ∉ acc)
    (hsg : s ++ ".repack-aligned-debugSigned.apk" ∉ acc) :
    processSplit acc s = insert (s ++ "_patched.apk") acc := by
  have hrk_ne_s : (s ++ ".repack.apk") ≠ s :=
    fun h => (ne_self_append s ".repack.apk" (by decide)) h.symm
  have hsg_ne_s : (s ++ ".repack-aligned-debugSigned.apk") ≠ s :=
    fun h => (ne_self_append s ".repack-aligned-debugSigned.apk" (by decide)) h.symm
  have hsg_ne_rk : (s ++ ".repack-aligned-debugSigned.apk") ≠ (s ++ ".repack.apk") :=
    fun h => repack_ne_signed s s h.symm
  show insert (s ++ "_patched.apk")
      ((((insert (s ++ ".repack-aligned-debugSigned.apk")
            (insert (s ++ ".repack.apk") (insert s acc))).erase
          (s ++ ".repack.apk")).erase s).erase
        (s ++ ".repack-aligned-debugSigned.apk"))
    = insert (s ++ "_patched.apk") acc
  rw [Finset.erase_insert_of_ne hsg_ne_rk,
      Finset.erase_insert (by simp only [Finset.mem_insert, not_or]; exact ⟨hrk_ne_s, hrk⟩),
      Finset.erase_insert_of_ne hsg_ne_s,
      Finset.erase_insert hs,
      Finset.erase_insert hsg]

lemma foldl_processSplit (stems : List String) : ∀ done : List String,
    (∀ s ∈ stems, ∀ t, (t ∈ done ∨ t ∈ stems) → s ≠ t ++ "_patched.apk") →
    stems.foldl processSplit ((done.map (fun t => t ++ "_patched.apk")).toFinset)
      = ((done ++ stems).map (fun t => t ++ "_patched.apk")).toFinset := by
  induction stems with
  | nil => intro done _; simp
  | cons s rest ih =>
    intro done h
    have hs_notin : s ∉ (done.map (fun t => t ++ "_patched.apk")).toFinset := by
      simp only [List.mem_toFinset, List.mem_map]
      rintro ⟨t, ht, hteq⟩
      exact h s (by simp) t (Or.inl ht) hteq.symm
    have hrk : s ++ ".repack.apk" ∉ (done.map (fun t => t ++ "_patched.apk")).toFinset := by
      simp only [List.mem_toFinset, List.mem_map]
      rintro ⟨t, _, hteq⟩
      exact repack_ne_patched s t hteq.symm
    have hsg : s ++ ".repack-aligned-debugSigned.apk"
        ∉ (done.map (fun t => t ++ "_patched.apk")).toFinset := by
      simp only [List.mem_toFinset, List.mem_map]
      rintro ⟨t, _, hteq⟩
      exact signed_ne_patched s t hteq.symm
    have hstep : insert (s ++ "_patched.apk")
        ((done.map (fun t => t ++ "_patched.apk")).toFinset)
        = ((done ++ [s]).map (fun t => t ++ "_patched.apk")).toFinset := by
      ext x
      simp [or_comm]
    have hrec := ih (done ++ [s]) (by
      intro s' hs' t ht
      refine h s' (by simp [hs']) t ?_
      rcases ht with h1 | h2
      · rcases List.mem_append.mp h1 with ha | hb
        · exact Or.inl ha
        · simp only [List.mem_singleton] at hb
          exact Or.inr (by simp [hb])
      · exact Or.inr (by simp [h2]))
    calc (s :: rest).foldl processSplit
          ((done.map (fun t => t ++ "_patched.apk")).toFinset)
        = rest.foldl processSplit
            (processSplit ((done.map (fun t => t ++ "_patched.apk")).toFinset) s) := rfl
      _ = rest.foldl processSplit
            (((done ++ [s]).map (fun t => t ++ "_patched.apk")).toFinset) := by
            rw [processSplit_eq_insert _ _ hs_notin hrk hsg, hstep]
      _ = (((done ++ [s]) ++ rest).map (fun t => t ++ "_patched.apk")).toFinset := hrec
      _ = ((done ++ s :: rest).map (fun t => t ++ "_patched.apk")).toFinset := by
            rw [List.append_assoc]
            rfl

lemma endsWith_append_patched (t : String) :
    endsWithChars ((t ++ "_patched.apk").data) (".apk" : String).data = true := by
  rw [String.data_append]
  unfold endsWithChars
  rw [decide_eq_true_eq]
  have h12 : ("_patched.apk" : String).data.length = 12 := rfl
  have h4 : (".apk" : String).data.length = 4 := rfl
  have hL : (t.data ++ ("_patched.apk" : String).data).length
      - (".apk" : String).data.length = t.data.length + 8 := by
    simp only [List.length_append, h12, h4]
    omega
  rw [hL, List.drop_append_eq_append_drop, List.drop_eq_nil_of_le (by omega)]
  have h8 : t.data.length + 8 - t.data.length = 8 := by omega
  rw [h8]
  rfl

/-- C6: when every split is processed successfully, the install-multiple
call receives exactly one file per original extracted split, named by the
stem followed by the patched suffix: each iteration removes the repacked
apk and the decompile directory and renames the signed output before the
next split runs, so only the canonical patched names remain. Successful
processing is formalized by the two hypotheses: stems are pairwise
distinct, and no stem itself spells the patched name of another split
(such a collision would make the decompile step fail on an existing
path). -/
theorem patch_package_install_set (prior : Finset String) (stems : List String)
    (hnd : stems.Nodup)
    (hfresh : ∀ s ∈ stems, ∀ t ∈ stems, s ≠ t ++ "_patched.apk") :
    installFiles (patchPackageDir prior stems)
        = (stems.map (fun t => t ++ "_patched.apk")).toFinset
      ∧ (installFiles (patchPackageDir prior stems)).card = stems.length := by
  have hfold : patchPackageDir prior stems
      = (stems.map (fun t => t ++ "_patched.apk")).toFinset := by
    have h := foldl_processSplit stems [] (by
      intro s hs t ht
      rcases ht with h1 | h2
      · simp at h1
      · exact hfresh s hs t h2)
    simpa [patchPackageDir, rmtreeThenMkdir] using h
  have hfilter : installFiles ((stems.map (fun t => t ++ "_patched.apk")).toFinset)
      = (stems.map (fun t => t ++ "_patched.apk")).toFinset := by
    apply Finset.filter_true_of_mem
    intro x hx
    simp only [List.mem_toFinset, List.mem_map] at hx
    obtain ⟨t, _, rfl⟩ := hx
    exact endsWith_append_patched t
  refine ⟨by rw [hfold, hfilter], ?_⟩
  rw [hfold, hfilter,
      List.toFinset_card_of_nodup (List.Nodup.map append_patched_injective hnd),
      List.length_map]

/-- Witness for C6 at a two-split package with base and config.arm64. -/
theorem patch_package_install_set_witness :
    installFiles (patchPackageDir {"stale_patched.apk"} ["base", "config.arm64"])
        = ((["base", "config.arm64"] : List String).map (fun t => t ++ "_patched.apk")).toFinset
      ∧ (installFiles (patchPackageDir {"stale_patched.apk"} ["base", "config.arm64"])).card
        = (["base", "config.arm64"] : List String).length :=
  patch_package_install_set {"stale_patched.apk"} ["base", "config.arm64"]
    (by decide) (by decide)

lemma processSplit_subset_artifacts (acc : Finset String) (s : String) :
    processSplit acc s ⊆ insert (s ++ "_patched.apk")
      (insert (s ++ ".repack-aligned-debugSigned.apk")
        (insert (s ++ ".repack.apk") (insert s acc))) := by
  intro x hx
  have hx' : x ∈ insert (s ++ "_patched.apk")
      ((((insert (s ++ ".repack-aligned-debugSigned.apk")
            (insert (s ++ ".repack.apk") (insert s acc))).erase
          (s ++ ".repack.apk")).erase s).erase
        (s ++ ".repack-aligned-debugSigned.apk")) := hx
  rcases Finset.mem_insert.mp hx' with h1 | h1
  · exact Finset.mem_insert.mpr (Or.inl h1)
  · have h2 := Finset.mem_of_mem_erase (Finset.mem_of_mem_erase (Finset.mem_of_mem_erase h1))
    simp only [Finset.mem_insert] at h2 ⊢
    tauto

lemma foldl_processSplit_subset (stems : List String) : ∀ (acc : Finset String) (x : String),
    x ∈ stems.foldl processSplit acc →
    x ∈ acc ∨ ∃ s ∈ stems, x = s ∨ x = s ++ ".repack.apk"
      ∨ x = s ++ ".repack-aligned-debugSigned.apk" ∨ x = s ++ "_patched.apk" := by
  induction stems with
  | nil => intro acc x hx; exact Or.inl hx
  | cons s rest ih =>
    intro acc x hx
    rcases ih (processSplit acc s) x hx with h | ⟨t, ht, hcase⟩
    · have h3 := processSplit_subset_artifacts acc s h
      simp only [Finset.mem_insert] at h3
      rcases h3 with h1 | h1 | h1 | h1 | h1
      · exact Or.inr ⟨s, by simp, by tauto⟩
      · exact Or.inr ⟨s, by simp, by tauto⟩
      · exact Or.inr ⟨s, by simp, by tauto⟩
      · exact Or.inr ⟨s, by simp, by tauto⟩
      · exact Or.inl h1
    · exact Or.inr ⟨t, by simp [ht], hcase⟩

/-- C9: patch_package first deletes the whole patched-output directory
and recreates it empty (lines 99-100), so the directory it then builds is
the same whatever the directory held before, and every file the install
step can see is an artifact of the current run: the decompile directory,
the repacked apk, the signed apk or the patched apk of one of the current
stems. A leftover from a previous run that is not such an artifact name
is never handed to the installer. -/
theorem patched_dir_scope (prior prior' : Finset String) (stems : List String) :
    patchPackageDir prior stems = patchPackageDir prior' stems
      ∧ ∀ x ∈ installFiles (patchPackageDir prior stems),
          ∃ s ∈ stems, x = s ∨ x = s ++ ".repack.apk"
            ∨ x = s ++ ".repack-aligned-debugSigned.apk" ∨ x = s ++ "_patched.apk" := by
  refine ⟨rfl, ?_⟩
  intro x hx
  have hx' : x ∈ patchPackageDir prior stems := Finset.mem_of_mem_filter x hx
  rcases foldl_processSplit_subset stems (rmtreeThenMkdir prior) x hx' with h | h
  · simp [rmtreeThenMkdir] at h
  · exact h

/-- Witness for C9: a stale entry in the old directory does not survive,
and the surviving member base_patched.apk is a current-run artifact. -/
theorem patched_dir_scope_witness :
    ∃ s ∈ (["base"] : List String), "base_patched.apk" = s
      ∨ "base_patched.apk" = s ++ ".repack.apk"
      ∨ "base_patched.apk" = s ++ ".repack-aligned-debugSigned.apk"
      ∨ "base_patched.apk" = s ++ "_patched.apk" :=
  (patched_dir_scope {"leftover_patched.apk"} ∅ ["base"]).2 "base_patched.apk" (by decide)

lemma find_append_of_none {α : Type} (p : α → Bool) (l₁ l₂ : List α)
    (h : l₁.find? p = none) : (l₁ ++ l₂).find? p = l₂.find? p := by
  induction l₁ with
  | nil => simp
  | cons a l ih =>
    cases hpa : p a with
    | true => simp [List.find?, hpa] at h
    | false =>
      simp only [List.find?, hpa] at h
      simpa [List.find?, hpa] using ih h

lemma lookupAttr_setAttr (attrs : List (String × String)) (k v : String)
    (h : lookupAttr attrs k = none) :
    lookupAttr (setAttr attrs k v) k = some v := by
  have hfind : attrs.find? (fun p => p.1 == k) = none := by
    unfold lookupAttr at h
    cases hf : attrs.find? (fun p => p.1 == k) with
    | none => rfl
    | some a => rw [hf] at h; simp at h
  unfold setAttr
  rw [hfind]
  simp only [Option.isSome_none, Bool.false_eq_true, if_false]
  unfold lookupAttr
  rw [find_append_of_none _ _ _ hfind]
  simp [List.find?]

/-- C3: the manifest patch is idempotent. When the application element
already carries the networkSecurityConfig attribute in the android
namespace, patch_manifest returns the manifest unchanged, bytes included,
because tree.write only runs inside the attribute-absent branch; hence a
second application after a first one is always a no-op. -/
theorem patch_manifest_idempotent (m : Manifest) :
    (lookupAttr m.appAttrs networkSecurityConfigAttr ≠ none → patch_manifest m = m)
      ∧ patch_manifest (patch_manifest m) = patch_manifest m := by
  constructor
  · intro h
    simp [patch_manifest, h]
  · by_cases hc : lookupAttr m.appAttrs networkSecurityConfigAttr = none
    · have h1 : patch_manifest m =
          { appAttrs := setAttr m.appAttrs networkSecurityConfigAttr
              "@xml/network_security_config"
            fileBytes := serializeManifest (setAttr m.appAttrs networkSecurityConfigAttr
              "@xml/network_security_config") } := by
        simp [patch_manifest, hc]
      have h2 := lookupAttr_setAttr m.appAttrs networkSecurityConfigAttr
        "@xml/network_security_config" hc
      rw [h1]
      simp [patch_manifest, h2]
    · simp [patch_manifest, hc]

/-- Witness for C3 at an already-patched manifest: the patch leaves it
byte-identical. -/
theorem patch_manifest_idempotent_witness :
    patch_manifest
        { appAttrs := [(networkSecurityConfigAttr, "@xml/network_security_config")]
          fileBytes := "original-bytes" }
      = { appAttrs := [(networkSecurityConfigAttr, "@xml/network_security_config")]
          fileBytes := "original-bytes" } :=
  (patch_manifest_idempotent
    { appAttrs := [(networkSecurityConfigAttr, "@xml/network_security_config")]
      fileBytes := "original-bytes" }).1 (by decide)

set_option maxRecDepth 4000 in
/-- C4: whatever the filesystem held before, add_network_security_config
writes the fixed policy document at the res/xml path below the unpacked
tree, and that document carries the cleartext permission together with
the system and user trust anchors inside its base-config element and a
user trust anchor inside its debug-overrides element, as the explicit
decompositions show. -/
theorem add_network_security_config_spec :
    (∀ (fs : FileSys) (unpacked_apk_path : String),
        add_network_security_config fs unpacked_apk_path
            (unpacked_apk_path ++ "/res/xml/network_security_config.xml")
          = some networkSecurityConfigXML)
      ∧ (∃ x y z : String, networkSecurityConfigXML
          = x ++ debugOverridesBlock ++ y ++ baseConfigBlock ++ z)
      ∧ (∃ u w : String, baseConfigBlock
          = u ++ "cleartextTrafficPermitted=\x22true\x22" ++ w)
      ∧ (∃ u w : String, baseConfigBlock = u ++ "<certificates src=\x22system\x22 />" ++ w)
      ∧ (∃ u w : String, baseConfigBlock = u ++ "<certificates src=\x22user\x22 />" ++ w)
      ∧ (∃ u w : String, debugOverridesBlock
          = u ++ "<certificates src=\x22user\x22 />" ++ w) := by
  refine ⟨?_, ?_, ?_, ?_, ?_, ?_⟩
  · intro fs unpacked_apk_path
    simp [add_network_security_config, writeFile]
  · exact ⟨"<?xml version=\x221.0\x22 encoding=\x22utf-8\x22?>\n<network-security-config>\n    ",
      "\n    ", "\n</network-security-config>\n", by rfl⟩
  · exact ⟨"<base-config ", ">\n        <trust-anchors>\n            <certificates src=\x22system\x22 />\n            <certificates src=\x22user\x22 />\n        </trust-anchors>\n    </base-config>", by rfl⟩
  · exact ⟨"<base-config cleartextTrafficPermitted=\x22true\x22>\n        <trust-anchors>\n            ",
      "\n            <certificates src=\x22user\x22 />\n        </trust-anchors>\n    </base-config>", by rfl⟩
  · exact ⟨"<base-config cleartextTrafficPermitted=\x22true\x22>\n        <trust-anchors>\n            <certificates src=\x22system\x22 />\n            ",
      "\n        </trust-anchors>\n    </base-config>", by rfl⟩
  · exact ⟨"<debug-overrides>\n        <trust-anchors>\n            ",
      "\n        </trust-anchors>\n    </debug-overrides>", by rfl⟩

/-- C5: in the split loop, only the split whose filename stem equals the
literal base receives the manifest edit and the policy file; for every
other stem the decompiled tree reaching the repack step is exactly the
tree the decompile step produced. -/
theorem patchStep_only_base (file_name unpacked_apk_path : String) (t : DecompiledTree) :
    (file_name ≠ "base" → patchStep file_name unpacked_apk_path t = t)
      ∧ (patchStep "base" unpacked_apk_path t).manifest = patch_manifest t.manifest
      ∧ (patchStep "base" unpacked_apk_path t).files
          (unpacked_apk_path ++ "/res/xml/network_security_config.xml")
        = some networkSecurityConfigXML := by
  refine ⟨?_, ?_, ?_⟩
  · intro h
    simp [patchStep, h]
  · simp [patchStep]
  · simp [patchStep, add_network_security_config, writeFile]

/-- Witness for C5 at the config.arm64 split: its tree is repacked
unmodified. -/
theorem patchStep_only_base_witness :
    patchStep "config.arm64" "work/config.arm64"
        { manifest := { appAttrs := [], fileBytes := "" }, files := fun _ => none }
      = { manifest := { appAttrs := [], fileBytes := "" }, files := fun _ => none } :=
  (patchStep_only_base "config.arm64" "work/config.arm64"
    { manifest := { appAttrs := [], fileBytes := "" }, files := fun _ => none }).1
    (by decide)

/-- C8: over any release listing, download_latest_jar selects the first
listed asset whose name ends with the jar extension and returns the tool
cache path bearing that original filename; when no listed asset has the
extension it fails with the configuration error message, which the main
flow does not catch, so the run aborts. -/
theorem download_latest_jar_spec :
    (∀ (pre : List Asset) (a : Asset) (post : List Asset),
        (∀ b ∈ pre, strEndsWith b.name ".jar" = false) →
        strEndsWith a.name ".jar" = true →
        download_latest_jar (pre ++ a :: post) = Except.ok ("utils/" ++ a.name))
      ∧ (∀ assets : List Asset,
        (∀ b ∈ assets, strEndsWith b.name ".jar" = false) →
        download_latest_jar assets
          = Except.error "JAR file is missing in the release assets.") := by
  constructor
  · intro pre a post hpre ha
    have hnone : pre.find? (fun item => strEndsWith item.name ".jar") = none := by
      apply List.find?_eq_none.mpr
      intro x hx
      simp [hpre x hx]
    unfold download_latest_jar
    rw [find_append_of_none _ _ _ hnone]
    simp [List.find?, ha]
  · intro assets hall
    have hnone : assets.find? (fun item => strEndsWith item.name ".jar") = none := by
      apply List.find?_eq_none.mpr
      intro x hx
      simp [hall x hx]
    unfold download_latest_jar
    rw [hnone]

/-- Witness for C8: a non-jar asset listed first is skipped and the first
jar asset decides the returned cache path. -/
theorem download_latest_jar_spec_witness :
    download_latest_jar
        [{ name := "apktool-docs.txt", browser_download_url := "u1" },
         { name := "apktool_2.9.3.jar", browser_download_url := "u2" }]
      = Except.ok ("utils/" ++ "apktool_2.9.3.jar") :=
  download_latest_jar_spec.1
    [{ name := "apktool-docs.txt", browser_download_url := "u1" }]
    { name := "apktool_2.9.3.jar", browser_download_url := "u2" } []
    (by decide) (by decide)

lemma pullRun_snd_eq (lines : List String)
    (h : ∀ l ∈ lines, (afterFirstColon l.data).isSome) :
    (pullRun lines).2 = some (lines.map remoteBasename) := by
  induction lines with
  | nil => simp [pullRun]
  | cons l ls ih =>
    obtain ⟨p, hp⟩ := Option.isSome_iff_exists.mp (h l (by simp))
    have hrec := ih (fun x hx => h x (by simp [hx]))
    rcases hE : pullRun ls with ⟨evs, o⟩
    rw [hE] at hrec
    simp only at hrec
    subst hrec
    simp [pullRun, hp, hE, remoteBasename, remotePath]

lemma pullRun_snd_none (lines : List String)
    (h : ∃ l ∈ lines, afterFirstColon l.data = none) :
    (pullRun lines).2 = none := by
  induction lines with
  | nil => obtain ⟨l, hl, _⟩ := h; simp at hl
  | cons l ls ih =>
    obtain ⟨x, hx, hbad⟩ := h
    rcases List.mem_cons.mp hx with rfl | hx'
    · simp [pullRun, hbad]
    · cases hl : afterFirstColon l.data with
      | none => simp [pullRun, hl]
      | some p =>
        have hrec := ih ⟨x, hx', hbad⟩
        rcases hE : pullRun ls with ⟨evs, o⟩
        rw [hE] at hrec
        simp only at hrec
        subst hrec
        simp [pullRun, hl, hE]

lemma afterFirstColon_eq_none (l : List Char) :
    afterFirstColon l = none ↔ (':' : Char) ∉ l := by
  induction l with
  | nil => simp [afterFirstColon]
  | cons c cs ih =>
    by_cases hc : c = ':'
    · subst hc
      simp [afterFirstColon]
    · simp [afterFirstColon, hc, ih, eq_comm]

/-- C10: the extraction loop assumes every line of the path query output
carries a ':' and takes the text after the first ':' as the remote path.
A reported line without ':' makes indexing the split result raise an
uncaught IndexError that aborts the run, which is a different effect from
the not-found print-and-exit; and when every line carries a ':' (as lines
of the package:path shape do), that error branch is unreachable and the
pull completes. -/
theorem pull_package_colon_assumption (lines : List String) :
    ((∃ l ∈ lines, (':' : Char) ∉ l.data) → pull_package lines = PullOutcome.indexError)
      ∧ ((∀ l ∈ lines, (':' : Char) ∈ l.data) → lines ≠ [] →
          ∃ ns, pull_package lines = PullOutcome.pulled ns) := by
  constructor
  · rintro ⟨l, hl, hnc⟩
    have hempty : lines.isEmpty = false := by
      cases lines with
      | nil => simp at hl
      | cons a as => rfl
    have hnone := pullRun_snd_none lines ⟨l, hl, (afterFirstColon_eq_none l.data).mpr hnc⟩
    simp [pull_package, hempty, hnone]
  · intro hall hne
    have hempty : lines.isEmpty = false := by
      cases lines with
      | nil => exact absurd rfl hne
      | cons a as => rfl
    have hsome := pullRun_snd_eq lines (by
      intro l hl
      cases hA : afterFirstColon l.data with
      | none => exact absurd ((afterFirstColon_eq_none l.data).mp hA) (by simp [hall l hl])
      | some p => rfl)
    exact ⟨lines.map remoteBasename, by simp [pull_package, hempty, hsome]⟩

/-- Witness for C10: a colon-free line aborts with the IndexError effect,
and a well-shaped line list completes the pull. -/
theorem pull_package_colon_assumption_witness :
    pull_package ["garbage-line"] = PullOutcome.indexError
      ∧ ∃ ns, pull_package ["package:/data/app/x/base.apk"] = PullOutcome.pulled ns :=
  ⟨(pull_package_colon_assumption ["garbage-line"]).1 ⟨"garbage-line", by simp, by decide⟩,
   (pull_package_colon_assumption ["package:/data/app/x/base.apk"]).2
     (by intro l hl; simp at hl; subst hl; decide) (by simp)⟩

/-- Counterexample to C2 as stated: two device-reported paths that share
the basename base.apk are both pulled to the same local name, so the
local package directory holds one file although the device reported two
paths; the claimed one-file-per-path correspondence fails. -/
theorem pull_package_basename_collision :
    pull_package ["package:/data/app/one/base.apk", "package:/data/app/two/base.apk"]
        = PullOutcome.pulled ["base.apk", "base.apk"]
      ∧ (["base.apk", "base.apk"] : List String).toFinset.card = 1
      ∧ (["package:/data/app/one/base.apk", "package:/data/app/two/base.apk"]
          : List String).length = 2 := by
  refine ⟨by decide, by decide, by decide⟩

/-- C2 amended: for a nonempty path query whose lines each carry a ':'
and whose remote basenames are pairwise distinct, extraction writes
exactly the files named by the remote basenames, in query order, and the
local package directory then holds exactly one file per device-reported
path. Without the distinctness hypothesis the correspondence fails, as
the basename-collision counterexample shows. -/
theorem pull_package_extracts_basenames (lines : List String)
    (hne : lines ≠ [])
    (hcolon : ∀ l ∈ lines, (afterFirstColon l.data).isSome)
    (hnd : (lines.map remoteBasename).Nodup) :
    pull_package lines = PullOutcome.pulled (lines.map remoteBasename)
      ∧ (lines.map remoteBasename).toFinset.card = lines.length := by
  have hempty : lines.isEmpty = false := by
    cases lines with
    | nil => exact absurd rfl hne
    | cons a as => rfl
  have hsome := pullRun_snd_eq lines hcolon
  refine ⟨by simp [pull_package, hempty, hsome], ?_⟩
  rw [List.toFinset_card_of_nodup hnd, List.length_map]

/-- Witness for C2 at a base plus config split with distinct basenames. -/
theorem pull_package_extracts_basenames_witness :
    pull_package ["package:/data/app/ex/base.apk", "package:/data/app/ex/split_config.arm64.apk"]
        = PullOutcome.pulled
            ((["package:/data/app/ex/base.apk",
               "package:/data/app/ex/split_config.arm64.apk"] : List String).map remoteBasename)
      ∧ ((["package:/data/app/ex/base.apk",
           "package:/data/app/ex/split_config.arm64.apk"] : List String).map
            remoteBasename).toFinset.card
        = (["package:/data/app/ex/base.apk",
            "package:/data/app/ex/split_config.arm64.apk"] : List String).length :=
  pull_package_extracts_basenames
    ["package:/data/app/ex/base.apk", "package:/data/app/ex/split_config.arm64.apk"]
    (by simp) (by decide) (by decide)

/-- Counterexample to C1 as stated: on a run with three arguments whose
device query reports zero paths, the process does end with exit status 1,
but both tool downloads are in the trace, because the main block
downloads the two jars on lines 131-132 before patch_package ever issues
the path query; the claim that no tool download is performed is false. -/
theorem zero_paths_counterexample :
    Event.exitWith 1 ∈ mainTrace ["patch_apk.py", "emulator-5554", "com.example.app"] []
      ∧ Event.downloadTool APKTOOL_URL
          ∈ mainTrace ["patch_apk.py", "emulator-5554", "com.example.app"] []
      ∧ Event.downloadTool UBER_APK_SIGNER_URL
          ∈ mainTrace ["patch_apk.py", "emulator-5554", "com.example.app"] [] := by
  refine ⟨by decide, by decide, by decide⟩

/-- C1 amended: when the device reports zero installed file paths for the
package identifier, the run ends with exit status 1 and performs no
decompilation, no file pull and no install attempt; the two tool
downloads, however, do occur, since they precede the device query in the
main block. -/
theorem zero_paths_aborts (argv : List String) (pmLines : List String)
    (hargs : 3 ≤ argv.length) (hempty : pmLines = []) :
    (mainTrace argv pmLines).getLast? = some (Event.exitWith 1)
      ∧ Event.exitWith 1 ∈ mainTrace argv pmLines
      ∧ (∀ s, Event.decompile s ∉ mainTrace argv pmLines)
      ∧ (∀ n, Event.pullFile n ∉ mainTrace argv pmLines)
      ∧ (∀ fs, Event.installMultiple fs ∉ mainTrace argv pmLines)
      ∧ Event.downloadTool APKTOOL_URL ∈ mainTrace argv pmLines
      ∧ Event.downloadTool UBER_APK_SIGNER_URL ∈ mainTrace argv pmLines := by
  subst hempty
  have hlt : ¬ argv.length < 3 := by omega
  have htr : mainTrace argv [] =
      [Event.downloadTool APKTOOL_URL, Event.downloadTool UBER_APK_SIGNER_URL,
       Event.queryPaths (stripPackageScheme (argv.getD 2 "")),
       Event.printNotFound, Event.exitWith 1] := by
    simp [mainTrace, hlt, patchPackageTrace]
  rw [htr]
  refine ⟨by simp, by simp, ?_, ?_, ?_, by simp, by simp⟩
  · intro s; simp
  · intro n; simp
  · intro fs; simp

/-- Witness for the amended C1 at a concrete three-argument invocation
with an empty path query. -/
theorem zero_paths_aborts_witness :
    (mainTrace ["patch_apk.py", "emulator-5554", "com.example.app"] []).getLast?
        = some (Event.exitWith 1)
      ∧ Event.exitWith 1 ∈ mainTrace ["patch_apk.py", "emulator-5554", "com.example.app"] []
      ∧ (∀ s, Event.decompile s
          ∉ mainTrace ["patch_apk.py", "emulator-5554", "com.example.app"] [])
      ∧ (∀ n, Event.pullFile n
          ∉ mainTrace ["patch_apk.py", "emulator-5554", "com.example.app"] [])
      ∧ (∀ fs, Event.installMultiple fs
          ∉ mainTrace ["patch_apk.py", "emulator-5554", "com.example.app"] [])
      ∧ Event.downloadTool APKTOOL_URL
          ∈ mainTrace ["patch_apk.py", "emulator-5554", "com.example.app"] []
      ∧ Event.downloadTool UBER_APK_SIGNER_URL
          ∈ mainTrace ["patch_apk.py", "emulator-5554", "com.example.app"] [] :=
  zero_paths_aborts ["patch_apk.py", "emulator-5554", "com.example.app"] []
    (by decide) rfl

/-- C7: invoked with fewer than two positional arguments after the
program name, the main block prints the usage message and exits with
status 1 before any other event: the whole trace is exactly the usage
print and the exit, so no download, no device query, no decompilation and
no install attempt occur. -/
theorem usage_error_aborts (argv : List String) (pmLines : List String)
    (h : argv.length < 3) :
    mainTrace argv pmLines = [Event.printUsage, Event.exitWith 1]
      ∧ (∀ u, Event.downloadTool u ∉ mainTrace argv pmLines)
      ∧ (∀ p, Event.queryPaths p ∉ mainTrace argv pmLines)
      ∧ (∀ s, Event.decompile s ∉ mainTrace argv pmLines)
      ∧ (∀ fs, Event.installMultiple fs ∉ mainTrace argv pmLines) := by
  have htr : mainTrace argv pmLines = [Event.printUsage, Event.exitWith 1] := by
    simp [mainTrace, h]
  refine ⟨htr, ?_, ?_, ?_, ?_⟩
  · intro u; rw [htr]; simp
  · intro p; rw [htr]; simp
  · intro s; rw [htr]; simp
  · intro fs; rw [htr]; simp

/-- Witness for C7 at an invocation carrying only the serial argument. -/
theorem usage_error_aborts_witness :
    mainTrace ["patch_apk.py", "emulator-5554"] [] = [Event.printUsage, Event.exitWith 1]
      ∧ (∀ u, Event.downloadTool u ∉ mainTrace ["patch_apk.py", "emulator-5554"] [])
      ∧ (∀ p, Event.queryPaths p ∉ mainTrace ["patch_apk.py", "emulator-5554"] [])
      ∧ (∀ s, Event.decompile s ∉ mainTrace ["patch_apk.py", "emulator-5554"] [])
      ∧ (∀ fs, Event.installMultiple fs ∉ mainTrace ["patch_apk.py", "emulator-5554"] []) :=
  usage_error_aborts ["patch_apk.py", "emulator-5554"] [] (by decide)
